import Mathlib

/-!
# Buttercup: selection-tree evaluator and reactive service, shallow embedding

This file embeds the core of the `buttercup` repository in Lean 4:

* `SelectionTreeEvaluator` with `select_commands` / `get_node` / `get_edge` /
  `handle` (from `src/app/selection/tree/evaluation.rs`), together with the
  test fixture `build_evaluator` and its three test payloads from the same
  file;
* `ReactiveService` with `initialize_nodes` / `cleanup_nodes` / `register` /
  `abort` (from `src/app/behavior/context/reactive.rs`).

The value model, conditions, expressions, selection edges and selection nodes
are declared in repository modules that are not part of the provided sources;
those definitions are modelled from the specification (§3, §4.A–§4.D) and each
carries a doc comment saying so.

The Rust `handle` is recursive through heap-addressed nodes and does not
structurally terminate; it is embedded with an explicit fuel parameter that is
decremented once per visited node.  `none` means the computation did not
complete within the given fuel; divergence of the Rust original corresponds to
the embedding returning `none` for every fuel value.
-/

namespace Buttercup

/-- Address of a content command: `(id, index)` pair, `id` the stable logical
identifier, `index` a slot into the owning vector (spec §3, translated from the
constructor calls `ContentCommandAddress::new(id, index)` in the fixture). -/
structure ContentCommandAddress where
  id : Int
  index : Nat
deriving DecidableEq

/-- Address of a selection node: `(id, index)` pair. -/
structure SelectionNodeAddress where
  id : Int
  index : Nat
deriving DecidableEq

/-- Address of a selection edge: `(id, index)` pair. -/
structure SelectionEdgeAddress where
  id : Int
  index : Nat
deriving DecidableEq

/-- Address of an expression inside a logical edge: `(id, index)` pair. -/
structure ExpressionAddress where
  id : Int
  index : Nat
deriving DecidableEq

/-- Modelled from the spec: day-of-week wrapper over `chrono::Weekday`
(`WeekdayWrapper`, module `app::values::wrappers`, absent from the provided
sources).  Seven constructors, Monday first, as in `chrono`. -/
inductive Weekday where
  | mon | tue | wed | thu | fri | sat | sun
deriving DecidableEq

/-- Modelled from the spec (§3, `ValueHolder`, module `app::values`, absent
from the provided sources): tagged union of typed runtime values.  The
variants exercised by the repository's fixture are embedded: Boolean, Integer
(unbounded, `BigInt` as `Int`), Decimal (exact rational, `BigRational` as
`Rat`), String and DayOfWeek.  The date/time and list variants of §3 are not
needed by any claim and are omitted. -/
inductive ValueHolder where
  | Boolean (b : Bool)
  | Integer (i : Int)
  | Decimal (q : Rat)
  | String (s : String)
  | DayOfWeek (d : Weekday)
deriving DecidableEq

/-- Modelled from the spec (§3, `ValuesPayload`, module `app::values`, absent
from the provided sources): a mapping from value-name to `ValueHolder`,
embedded as an association list with unique keys; `HashMap` iteration order is
irrelevant to every operation used here (lookup only). -/
structure ValuesPayload where
  values : List (String × ValueHolder)
deriving DecidableEq

/-- First-match association-list lookup, embedding `HashMap::get`. -/
def lookupAssoc {α : Type} : List (String × α) → String → Option α
  | [], _ => none
  | (k, v) :: rest, name => if k = name then some v else lookupAssoc rest name

/-- `ValuesPayload::get_value_by_name` as used by condition evaluation. -/
def ValuesPayload.get (p : ValuesPayload) (name : String) : Option ValueHolder :=
  lookupAssoc p.values name

/-- Modelled from the spec (§3, `RelationalOperator`, module
`app::selection::edges::logical::operators`, absent from the provided
sources).  `MatchesRegex` is omitted: it needs a regex engine and no claim or
fixture uses it. -/
inductive RelationalOperator where
  | Equals
  | NotEquals
  | LessThan
  | LessThanOrEquals
  | GreaterThan
  | GreaterThanOrEquals
  | Contains
  | StartsWith
  | EndsWith
deriving DecidableEq

/-- Modelled from the spec (§3, `LogicalOperator`). -/
inductive LogicalOperator where
  | And
  | Or
deriving DecidableEq

/-- Modelled from the spec (§3/§7, condition failure kinds, module
`app::selection::edges::logical::conditions`, absent from the provided
sources).  The variant names follow the fixture test
`test_err_empty_payload`. -/
inductive ConditionEvaluationError where
  | DidNotFindLeftValue (name : String)
  | DidNotFindRightValue (name : String)
  | IncompatibleValueTypes
  | UnsupportedOperatorForType
deriving DecidableEq

/-- Modelled from the spec (§3, `ConditionValue`): the right-hand side of a
condition, inline (`Static`) or payload-resolved (`Runtime`). -/
inductive ConditionValue where
  | Static (value : ValueHolder)
  | Runtime (name : String)
deriving DecidableEq

/-- Modelled from the spec (§3, `Condition`): `(id, left_value_name, operator,
negate, value)`, argument order as in the fixture's `Condition::new`. -/
structure Condition where
  id : Int
  left_value_name : String
  operator : RelationalOperator
  negate : Bool
  value : ConditionValue
deriving DecidableEq

/-- The rational `i / 1`, built without normalization so that kernel
reduction never meets `Nat.gcd`. -/
def intToRat (i : Int) : Rat :=
  ⟨i, 1, one_ne_zero, Nat.coprime_one_right _⟩

/-- Numeric view: `Integer` and `Decimal` both denote exact rationals. -/
def ValueHolder.asRat : ValueHolder → Option Rat
  | .Integer i => some (intToRat i)
  | .Decimal q => some q
  | _ => none

/-- Three-way comparison on `Rat` through its decidable order. -/
def cmpRat (x y : Rat) : Ordering :=
  if x < y then .lt else if x = y then .eq else .gt

/-- Three-way comparison on `String` through its decidable lexicographic
order. -/
def cmpString (a b : String) : Ordering :=
  if a < b then .lt else if a = b then .eq else .gt

/-- Three-way comparison on `Nat`. -/
def cmpNat (a b : Nat) : Ordering :=
  if a < b then .lt else if a = b then .eq else .gt

/-- Three-way comparison on `Bool`, `false < true`. -/
def cmpBool (a b : Bool) : Ordering :=
  cmpNat a.toNat b.toNat

/-- Whether character list `pat` occurs contiguously inside `hay`; embeds
`str::contains` for the `Contains` operator. -/
def hasSubList (pat : List Char) : List Char → Bool
  | [] => pat.isEmpty
  | c :: rest => pat.isPrefixOf (c :: rest) || hasSubList pat rest

/-- Modelled from the spec (§4.A `compare`): relational comparison of two
values.  Ordering and equality are total within a variant; `Integer` and
`Decimal` compare numerically with each other (the fixture test
`test_both_expression_edges_match` in `evaluation.rs` requires
`Decimal(0.32…) < Integer(10)` to succeed and hold, so the spec's blanket
cross-variant-error sentence is narrowed to non-numeric variant mixes);
`Contains` / `StartsWith` / `EndsWith` are defined only on `String × String`. -/
def compareValues (op : RelationalOperator) (l r : ValueHolder) :
    Except ConditionEvaluationError Bool :=
  match op with
  | .Contains =>
    match l, r with
    | .String a, .String b => .ok (hasSubList b.data a.data)
    | .String _, _ => .error .IncompatibleValueTypes
    | _, _ => .error .UnsupportedOperatorForType
  | .StartsWith =>
    match l, r with
    | .String a, .String b => .ok (b.data.isPrefixOf a.data)
    | .String _, _ => .error .IncompatibleValueTypes
    | _, _ => .error .UnsupportedOperatorForType
  | .EndsWith =>
    match l, r with
    | .String a, .String b => .ok (b.data.isSuffixOf a.data)
    | .String _, _ => .error .IncompatibleValueTypes
    | _, _ => .error .UnsupportedOperatorForType
  | .Equals =>
    match l.asRat, r.asRat with
    | some x, some y => .ok (x = y)
    | _, _ =>
      match l, r with
      | .Boolean a, .Boolean b => .ok (a = b)
      | .String a, .String b => .ok (a = b)
      | .DayOfWeek a, .DayOfWeek b => .ok (a = b)
      | _, _ => .error .IncompatibleValueTypes
  | .NotEquals =>
    match l.asRat, r.asRat with
    | some x, some y => .ok (x ≠ y)
    | _, _ =>
      match l, r with
      | .Boolean a, .Boolean b => .ok (a ≠ b)
      | .String a, .String b => .ok (a ≠ b)
      | .DayOfWeek a, .DayOfWeek b => .ok (a ≠ b)
      | _, _ => .error .IncompatibleValueTypes
  | .LessThan => compareOrd (fun o => o = Ordering.lt) l r
  | .LessThanOrEquals => compareOrd (fun o => o ≠ Ordering.gt) l r
  | .GreaterThan => compareOrd (fun o => o = Ordering.gt) l r
  | .GreaterThanOrEquals => compareOrd (fun o => o ≠ Ordering.lt) l r
where
  /-- Index of a weekday, Monday first, as `chrono`'s `number_from_monday`. -/
  weekdayIdx : Weekday → Nat
    | .mon => 0 | .tue => 1 | .wed => 2 | .thu => 3
    | .fri => 4 | .sat => 5 | .sun => 6
  /-- Total order within a variant (numeric across Integer/Decimal). -/
  compareOrd (accept : Ordering → Prop) [DecidablePred accept] (l r : ValueHolder) :
      Except ConditionEvaluationError Bool :=
    match l.asRat, r.asRat with
    | some x, some y => .ok (decide (accept (cmpRat x y)))
    | _, _ =>
      match l, r with
      | .Boolean a, .Boolean b => .ok (decide (accept (cmpBool a b)))
      | .String a, .String b => .ok (decide (accept (cmpString a b)))
      | .DayOfWeek a, .DayOfWeek b =>
        .ok (decide (accept (cmpNat (weekdayIdx a) (weekdayIdx b))))
      | _, _ => .error .IncompatibleValueTypes

/-- Modelled from the spec (§4.C `Condition.evaluate`): resolve the left value
by name (`DidNotFindLeftValue` on absence), resolve the right value by name or
take the inline value (`DidNotFindRightValue` on absence), compare with the
operator, then apply `negate`. -/
def Condition.evaluate (c : Condition) (payload : ValuesPayload) :
    Except ConditionEvaluationError Bool :=
  match payload.get c.left_value_name with
  | none => .error (.DidNotFindLeftValue c.left_value_name)
  | some leftValue =>
    match resolveRight c.value payload with
    | .error e => .error e
    | .ok rightValue =>
      match compareValues c.operator leftValue rightValue with
      | .error e => .error e
      | .ok b => .ok (if c.negate then !b else b)
where
  resolveRight : ConditionValue → ValuesPayload → Except ConditionEvaluationError ValueHolder
    | .Static v, _ => .ok v
    | .Runtime name, payload =>
      match payload.get name with
      | none => .error (.DidNotFindRightValue name)
      | some v => .ok v

/-- Modelled from the spec (§3/§7, expression failure kinds, module
`app::selection::edges::logical::expressions`, absent from the provided
sources).  Variant names follow the fixture test `test_err_empty_payload`.
`MissingExpression` also covers an id mismatch at the looked-up slot (the spec
names no separate kind for it); `CycleDetected` is the spec's §7 kind,
returned when the `next` chain revisits expressions (it is longer than the
edge's sub-expression table, which an acyclic chain can never be). -/
inductive ExpressionEvaluationError where
  | ConditionEvaluationError (e : ConditionEvaluationError)
  | MissingExpression (address : ExpressionAddress)
  | CycleDetected
deriving DecidableEq

/-- Modelled from the spec (§3, `ExpressionDefinition`): id and the logical
operator combining the expression's own conditions. -/
structure ExpressionDefinition where
  id : Int
  logical_operator : LogicalOperator
deriving DecidableEq

/-- Modelled from the spec (§3, the `next` link): the address of the chained
expression together with the connecting logical operator
(`NextExpressionAddressWithOperator::new(address, operator)`). -/
structure NextExpressionAddressWithOperator where
  address : ExpressionAddress
  operator : LogicalOperator
deriving DecidableEq

/-- Modelled from the spec (§3, `Expression`): definition, conditions combined
with the definition's operator, and an optional chained next expression. -/
structure Expression where
  definition : ExpressionDefinition
  conditions : List Condition
  next : Option NextExpressionAddressWithOperator
deriving DecidableEq

/-- Modelled from the spec (§4.C): short-circuit fold of a condition list
under a logical operator.  `And` stops at the first `false`, `Or` at the first
`true`; the empty list yields the operator's unit (`true` for `And`, `false`
for `Or`). -/
def foldConditions (payload : ValuesPayload) (op : LogicalOperator) :
    List Condition → Except ConditionEvaluationError Bool
  | [] => .ok (match op with | .And => true | .Or => false)
  | c :: rest =>
    match c.evaluate payload with
    | .error e => .error e
    | .ok b =>
      match op, b with
      | .And, false => .ok false
      | .Or, true => .ok true
      | _, _ => foldConditions payload op rest

/-- Resolve an expression address in the edge's sub-expression table, with the
spec §3 id check after indexing. -/
def lookupExpression (table : List Expression) (address : ExpressionAddress) :
    Option Expression :=
  match table.get? address.index with
  | none => none
  | some e => if e.definition.id = address.id then some e else none

/-- Modelled from the spec (§4.C `Expression.evaluate`): fold the own
conditions with the own operator; if `next` is present and the intermediate
result does not short-circuit the connector, resolve the next expression from
the table (`MissingExpression` on failure) and combine with the connector.
The chain is walked with fuel; callers pass `table.length + 1`, which an
acyclic chain cannot exhaust. -/
def Expression.evaluate (payload : ValuesPayload) (table : List Expression) :
    Nat → Expression → Except ExpressionEvaluationError Bool
  | 0, _ => .error .CycleDetected
  | fuel + 1, e =>
    match foldConditions payload e.definition.logical_operator e.conditions with
    | .error err => .error (.ConditionEvaluationError err)
    | .ok own =>
      match e.next with
      | none => .ok own
      | some link =>
        match link.operator, own with
        | .And, false => .ok false
        | .Or, true => .ok true
        | _, _ =>
          match lookupExpression table link.address with
          | none => .error (.MissingExpression link.address)
          | some nextExpr =>
            match Expression.evaluate payload table fuel nextExpr with
            | .error err => .error err
            | .ok rest =>
              .ok (match link.operator with
                   | .And => own && rest
                   | .Or => own || rest)

/-- Modelled from the spec (§4.D and the fixture's `SelectionEdgeError`):
error kinds of `can_pass`; `AlwaysTrue` edges never fail, so the only kind
wraps a logical-expression failure, named as in `test_err_empty_payload`. -/
inductive SelectionEdgeError where
  | LogicalExpressionSelectionEdgeError (e : ExpressionEvaluationError)
deriving DecidableEq

/-- Modelled from the spec (and the fixture's `SelectionEdgeDefinition::new(id,
next_selection_node_id, edge_type)`); the type tag is the Lean constructor. -/
structure SelectionEdgeDefinition where
  id : Int
  next_selection_node_id : Int
deriving DecidableEq

/-- Modelled from the spec (§3, `SelectionEdge`, module
`app::selection::edges`, absent from the provided sources): `AlwaysTrue`
always passes; `LogicalExpression` passes iff its entry expression evaluates
to true over the payload.  Both carry the target node address; the logical
variant carries the sub-expression table and the entry expression (the
fixture's `LogicalExpressionSelectionEdgeDetails` duplicates ids and is not
consulted by evaluation, so it is not carried). -/
inductive SelectionEdge where
  | AlwaysTrueSelectionEdge (definition : SelectionEdgeDefinition)
      (next_node : SelectionNodeAddress)
  | LogicalExpressionSelectionEdge (definition : SelectionEdgeDefinition)
      (next_node : SelectionNodeAddress)
      (sub_expressions : List Expression)
      (entry_expression : Expression)
deriving DecidableEq

/-- The edge's definition id. -/
def SelectionEdge.id : SelectionEdge → Int
  | .AlwaysTrueSelectionEdge d _ => d.id
  | .LogicalExpressionSelectionEdge d _ _ _ => d.id

/-- Modelled from the spec (§4.B `matches`): true iff the address id equals
the edge's own id. -/
def SelectionEdge.matches (e : SelectionEdge) (address : SelectionEdgeAddress) : Bool :=
  e.id = address.id

/-- `SelectionEdgeDelegate::get_next_selection_node`. -/
def SelectionEdge.get_next_selection_node : SelectionEdge → SelectionNodeAddress
  | .AlwaysTrueSelectionEdge _ next => next
  | .LogicalExpressionSelectionEdge _ next _ _ => next

/-- Modelled from the spec (§4.D `can_pass`): `AlwaysTrue → true`;
`LogicalExpression` evaluates the entry expression over the payload. -/
def SelectionEdge.can_pass (e : SelectionEdge) (payload : ValuesPayload) :
    Except SelectionEdgeError Bool :=
  match e with
  | .AlwaysTrueSelectionEdge _ _ => .ok true
  | .LogicalExpressionSelectionEdge _ _ subs entry =>
    match Expression.evaluate payload subs (subs.length + 1) entry with
    | .error err => .error (.LogicalExpressionSelectionEdgeError err)
    | .ok b => .ok b

/-- Modelled from the spec (§4.D node failure kinds): a dictionary node whose
key name is absent from the payload fails with `MissingDictionaryKey`. -/
inductive SelectionNodeError where
  | MissingDictionaryKey (name : String)
deriving DecidableEq

/-- Modelled from the fixture's `SelectionNodeDefinition::new(id, name)`. -/
structure SelectionNodeDefinition where
  id : Int
  name : String
deriving DecidableEq

/-- Modelled from the fixture's `SimpleSelectionNodeDetails::new(
selection_node_id, content_command_id)`; not consulted by evaluation. -/
structure SimpleSelectionNodeDetails where
  selection_node_id : Int
  content_command_id : Int
deriving DecidableEq

/-- Modelled from the fixture's `DictionarySelectionNodeDetails::new(
selection_node_id, default_command_id, key_name)`. -/
structure DictionarySelectionNodeDetails where
  selection_node_id : Int
  default_command_id : Int
  key_name : String
deriving DecidableEq

/-- Modelled from the spec (§3, `DictionaryNodeMapping::new(default_command,
map)`): value-keyed command map with a default, embedded as an association
list looked up by value equality (HashMap order is irrelevant, spec §4.E). -/
structure DictionaryNodeMapping where
  default_command : ContentCommandAddress
  mapping : List (ValueHolder × ContentCommandAddress)
deriving DecidableEq

/-- First-match lookup by `ValueHolder` equality, embedding `HashMap::get`. -/
def lookupByValue : List (ValueHolder × ContentCommandAddress) → ValueHolder →
    Option ContentCommandAddress
  | [], _ => none
  | (k, v) :: rest, key => if k = key then some v else lookupByValue rest key

/-- Modelled from the spec (§3, `SelectionNode`, module
`app::selection::nodes`, absent from the provided sources): `Simple` emits one
fixed command; `Dictionary` keys `payload[key_name]` into its map with a
default.  Constructor argument order follows the fixture's constructors. -/
inductive SelectionNode where
  | Simple (definition : SelectionNodeDefinition)
      (outgoing_edges : List SelectionEdgeAddress)
      (details : SimpleSelectionNodeDetails)
      (command : ContentCommandAddress)
  | Dictionary (definition : SelectionNodeDefinition)
      (outgoing_edges : List SelectionEdgeAddress)
      (details : DictionarySelectionNodeDetails)
      (mapping : DictionaryNodeMapping)
deriving DecidableEq

/-- The node's definition id. -/
def SelectionNode.id : SelectionNode → Int
  | .Simple d _ _ _ => d.id
  | .Dictionary d _ _ _ => d.id

/-- Modelled from the spec (§4.B `matches`): true iff the address id equals
the node's own id. -/
def SelectionNode.matches (n : SelectionNode) (address : SelectionNodeAddress) : Bool :=
  n.id = address.id

/-- `SelectionNodeDelegate::get_outgoing_edges`, declaration order preserved. -/
def SelectionNode.get_outgoing_edges : SelectionNode → List SelectionEdgeAddress
  | .Simple _ edges _ _ => edges
  | .Dictionary _ edges _ _ => edges

/-- Modelled from the spec (§4.D `select_content_command_id`): `Simple`
returns its fixed address; `Dictionary` reads `payload[key_name]` — missing
key is `MissingDictionaryKey`, an unmapped value falls back to the default
command.  The opaque `SelectionNodesContext` capability is unused by both
variants (spec §6) and is not carried. -/
def SelectionNode.select_content_command_id (n : SelectionNode)
    (payload : ValuesPayload) : Except SelectionNodeError ContentCommandAddress :=
  match n with
  | .Simple _ _ _ command => .ok command
  | .Dictionary _ _ details mapping =>
    match payload.get details.key_name with
    | none => .error (.MissingDictionaryKey details.key_name)
    | some value =>
      match lookupByValue mapping.mapping value with
      | none => .ok mapping.default_command
      | some command => .ok command

/-- Error type of the selection-tree walk.  The first six variants are the
ones constructed in `evaluation.rs` (`SelectionTreeError` itself is declared
in `app::selection::tree`, absent from the provided sources; variants and
payloads are read off the constructing code and the fixture tests).
`CycleDetected` is modelled from the spec (§7 lists it among the evaluation
error kinds); no code in `evaluation.rs` ever constructs it. -/
inductive SelectionTreeError where
  | MissingNode (address : SelectionNodeAddress)
  | MissingEdge (address : SelectionEdgeAddress)
  | SelectionNodeAddressIdMismatch (address : SelectionNodeAddress)
  | SelectionEdgeAddressIdMismatch (address : SelectionEdgeAddress)
  | SelectionNodeError (e : SelectionNodeError)
  | SelectionEdgeError (e : SelectionEdgeError)
  | CycleDetected
deriving DecidableEq

/-- `SelectionTreeEvaluator` (`evaluation.rs`, lines 11–18): start node plus
the owning vectors of nodes and edges. -/
structure SelectionTreeEvaluator where
  start_node : SelectionNode
  nodes : List SelectionNode
  edges : List SelectionEdge
deriving DecidableEq

/-- `SelectionTreeEvaluator::get_node` (`evaluation.rs`, lines 47–61):
checked indexing into `nodes`, `MissingNode` when the index is out of range,
`SelectionNodeAddressIdMismatch` when the element's id differs from the
address id. -/
def SelectionTreeEvaluator.get_node (ev : SelectionTreeEvaluator)
    (address : SelectionNodeAddress) : Except SelectionTreeError SelectionNode :=
  match ev.nodes.get? address.index with
  | none => .error (.MissingNode address)
  | some node =>
    if !node.matches address then
      .error (.SelectionNodeAddressIdMismatch address)
    else
      .ok node

/-- `SelectionTreeEvaluator::get_edge` (`evaluation.rs`, lines 63–77):
checked indexing into `edges`, `MissingEdge` when the index is out of range,
`SelectionEdgeAddressIdMismatch` when the element's id differs from the
address id. -/
def SelectionTreeEvaluator.get_edge (ev : SelectionTreeEvaluator)
    (address : SelectionEdgeAddress) : Except SelectionTreeError SelectionEdge :=
  match ev.edges.get? address.index with
  | none => .error (.MissingEdge address)
  | some edge =>
    if !edge.matches address then
      .error (.SelectionEdgeAddressIdMismatch address)
    else
      .ok edge

/-- The edge loop of `SelectionTreeEvaluator::handle` (`evaluation.rs`, lines
91–111): walk the outgoing-edge addresses in declaration order; a `get_edge`
failure propagates as is, a `can_pass` failure is wrapped in
`SelectionEdgeError`, the first edge whose `can_pass` is true decides the walk
(its target address is returned and no later sibling is examined), and if no
edge passes the loop falls through. -/
def SelectionTreeEvaluator.firstPassingEdge (ev : SelectionTreeEvaluator)
    (payload : ValuesPayload) :
    List SelectionEdgeAddress → Except SelectionTreeError (Option SelectionNodeAddress)
  | [] => .ok none
  | address :: rest =>
    match ev.get_edge address with
    | .error e => .error e
    | .ok edge =>
      match edge.can_pass payload with
      | .error e => .error (.SelectionEdgeError e)
      | .ok true => .ok (some edge.get_next_selection_node)
      | .ok false => ev.firstPassingEdge payload rest

/-- `SelectionTreeEvaluator::handle` (`evaluation.rs`, lines 79–113): append
the current node's selected command (a node-selection failure is wrapped in
`SelectionNodeError`), then run the edge loop; when an edge passes, resolve
its target with `get_node` and recurse.  The Rust recursion carries no
termination evidence, so the embedding spends one unit of fuel per visited
node; `none` means the fuel ran out before the walk finished. -/
def SelectionTreeEvaluator.handle (ev : SelectionTreeEvaluator)
    (payload : ValuesPayload) :
    Nat → SelectionNode → List ContentCommandAddress →
    Option (Except SelectionTreeError (List ContentCommandAddress))
  | 0, _, _ => none
  | fuel + 1, current_node, selected_command_ids =>
    match current_node.select_content_command_id payload with
    | .error e => some (.error (.SelectionNodeError e))
    | .ok command_address =>
      let selected := selected_command_ids ++ [command_address]
      match ev.firstPassingEdge payload current_node.get_outgoing_edges with
      | .error e => some (.error e)
      | .ok none => some (.ok selected)
      | .ok (some next_address) =>
        match ev.get_node next_address with
        | .error e => some (.error e)
        | .ok node => ev.handle payload fuel node selected

/-- `SelectionTreeEvaluator::select_commands` (`evaluation.rs`, lines 32–44):
run `handle` from the start node on an empty buffer; on success the buffer is
returned.  The fuel parameter is the embedding's termination budget. -/
def SelectionTreeEvaluator.select_commands (ev : SelectionTreeEvaluator)
    (payload : ValuesPayload) (fuel : Nat) :
    Option (Except SelectionTreeError (List ContentCommandAddress)) :=
  ev.handle payload fuel ev.start_node []

/-! ## The test fixture of `evaluation.rs`

Translation of `tests::build_evaluator` and the three test payloads.  The
Rust payloads build decimals with `BigRational::from_f64(0.3215421213)` and
`from_f64(11.2)`; the exact binary64 rationals differ from the decimal
literals, but every comparison the fixture evaluates — equality of the two
`0.3215421213` occurrences, their inequality with `11.2`, and `< 10` — has
the same truth value, so the decimal rationals are used. -/

/-- The fixture's `0.3215421213` decimal, as an explicit reduced fraction so
that kernel reduction never meets `Nat.gcd`. -/
def decSmall : Rat :=
  ⟨3215421213, 10000000000, by norm_num, by norm_num [Int.natAbs_ofNat]⟩

/-- The fixture's `11.2` decimal, as the explicit reduced fraction `56/5`. -/
def decLarge : Rat :=
  ⟨56, 5, by norm_num, by norm_num [Int.natAbs_ofNat]⟩

/-- `tests::build_evaluator` (`evaluation.rs`, lines 209–390). -/
def fixtureEvaluator : SelectionTreeEvaluator where
  start_node :=
    .Simple ⟨0, "Starting Node"⟩
      [⟨0, 0⟩, ⟨1, 1⟩]
      ⟨0, 0⟩
      ⟨0, 0⟩
  nodes :=
    [ .Simple ⟨1, "First After Condition Node"⟩
        [⟨2, 2⟩]
        ⟨1, 1⟩
        ⟨1, 0⟩,
      .Simple ⟨2, "Second Default Node"⟩
        [⟨3, 3⟩]
        ⟨2, 2⟩
        ⟨2, 0⟩,
      .Dictionary ⟨3, "Third Dictionary Node"⟩
        []
        ⟨3, 3, "firstValueName"⟩
        ⟨⟨3, 0⟩,
         [(.DayOfWeek .sat, ⟨4, 0⟩),
          (.DayOfWeek .sun, ⟨5, 0⟩)]⟩,
      .Dictionary ⟨4, "Fourth Dictionary Node"⟩
        []
        ⟨4, 6, "firstValueName"⟩
        ⟨⟨6, 0⟩,
         [(.DayOfWeek .sat, ⟨7, 0⟩),
          (.DayOfWeek .sun, ⟨8, 0⟩),
          (.DayOfWeek .mon, ⟨9, 0⟩)]⟩ ]
  edges :=
    [ .LogicalExpressionSelectionEdge ⟨0, 1⟩ ⟨1, 0⟩
        [ ⟨⟨1, .And⟩,
           [⟨0, "secondValueName", .Equals, false, .Runtime "thirdValueName"⟩,
            ⟨1, "thirdValueName", .LessThan, false, .Static (.Integer 10)⟩],
           none⟩ ]
        ⟨⟨0, .And⟩,
         [⟨2, "secondValueName", .Equals, false, .Runtime "thirdValueName"⟩,
          ⟨3, "thirdValueName", .LessThan, false, .Static (.Integer 10)⟩,
          ⟨4, "fourthValueName", .GreaterThanOrEquals, true, .Static (.Integer 10)⟩],
         some ⟨⟨1, 0⟩, .Or⟩⟩,
      .AlwaysTrueSelectionEdge ⟨1, 2⟩ ⟨2, 1⟩,
      .LogicalExpressionSelectionEdge ⟨2, 3⟩ ⟨3, 2⟩
        []
        ⟨⟨2, .And⟩,
         [⟨5, "fifthValueName", .Contains, false, .Static (.String "ski")⟩],
         none⟩,
      .AlwaysTrueSelectionEdge ⟨3, 4⟩ ⟨4, 3⟩ ]

/-- The payload of `tests::test_only_default_edge_match`. -/
def payloadDefaultEdge : ValuesPayload :=
  ⟨[("firstValueName", .DayOfWeek .sat),
    ("secondValueName", .Decimal decSmall),
    ("thirdValueName", .Decimal decLarge),
    ("fourthValueName", .Integer 11),
    ("fifthValueName", .String "Borsm")]⟩

/-- The payload of `tests::test_both_expression_edges_match`. -/
def payloadBothEdges : ValuesPayload :=
  ⟨[("firstValueName", .DayOfWeek .sat),
    ("secondValueName", .Decimal decSmall),
    ("thirdValueName", .Decimal decSmall),
    ("fourthValueName", .Integer 11),
    ("fifthValueName", .String "Borski")]⟩

/-- The payload of `tests::test_err_empty_payload`. -/
def payloadEmpty : ValuesPayload := ⟨[]⟩

/-- `tests::check_command_ids` compares the ids of the returned addresses. -/
def commandIds (commands : List ContentCommandAddress) : List Int :=
  commands.map ContentCommandAddress.id

/-- The fixture's `nodes[0]` (definition id 1), for address-mismatch checks. -/
def fixtureFirstNode : SelectionNode :=
  .Simple ⟨1, "First After Condition Node"⟩ [⟨2, 2⟩] ⟨1, 1⟩ ⟨1, 0⟩

/-- The fixture's `edges[0]` (the logical edge, definition id 0), for
address-mismatch checks. -/
def fixtureFirstEdge : SelectionEdge :=
  .LogicalExpressionSelectionEdge ⟨0, 1⟩ ⟨1, 0⟩
    [ ⟨⟨1, .And⟩,
       [⟨0, "secondValueName", .Equals, false, .Runtime "thirdValueName"⟩,
        ⟨1, "thirdValueName", .LessThan, false, .Static (.Integer 10)⟩],
       none⟩ ]
    ⟨⟨0, .And⟩,
     [⟨2, "secondValueName", .Equals, false, .Runtime "thirdValueName"⟩,
      ⟨3, "thirdValueName", .LessThan, false, .Static (.Integer 10)⟩,
      ⟨4, "fourthValueName", .GreaterThanOrEquals, true, .Static (.Integer 10)⟩],
     some ⟨⟨1, 0⟩, .Or⟩⟩

/-! ## A cyclic selection tree

A one-node tree whose single edge points back at that node; its walk revisits
the node forever. -/

/-- A node whose only outgoing edge leads back to itself (via `edges[0]`). -/
def cyclicNode : SelectionNode :=
  .Simple ⟨0, "Loop Node"⟩ [⟨0, 0⟩] ⟨0, 0⟩ ⟨0, 0⟩

/-- Evaluator whose edge/node addresses form a cycle: the start node's edge
always passes and targets the node itself. -/
def cyclicEvaluator : SelectionTreeEvaluator where
  start_node := cyclicNode
  nodes := [cyclicNode]
  edges := [.AlwaysTrueSelectionEdge ⟨0, 0⟩ ⟨0, 0⟩]

/-! ## Reactive service (`src/app/behavior/context/reactive.rs`)

`AbortHandle` comes from the `futures` crate; the embedding models a handle
as an opaque token (a `Nat`) and models `handle.abort()` — the cancellation
signal — by returning, from `ReactiveService::abort`, the list of handles the
call signalled, in iteration order (the `Vec` holds handles in registration
order, so iteration is FIFO).  The `DashMap` is an association list with
unique keys; the per-entry `Mutex` always locks in this sequential embedding,
so the `AbortEntryLockError` branch (poisoned mutex, a concurrency artifact)
is never taken. -/

/-- A `futures::future::AbortHandle`, modelled as an opaque token. -/
abbrev AbortHandle := Nat

/-- `ReactiveServiceError` (`reactive.rs`, lines 13–18). -/
inductive ReactiveServiceError where
  | AbortEntryNotFound (id : Int)
  | AbortEntryLockError (id : Int) (cause : String)
deriving DecidableEq

/-- `ReactiveService` (`reactive.rs`, lines 7–11): the map from BT node id to
its abort entry, as an association list with unique keys.  An entry is its
handle list (`AbortEntry.handles`; the entry's `bt_node_id` field is the
key). -/
structure ReactiveService where
  abort_handles : List (Int × List AbortHandle)
deriving DecidableEq

/-- `DashMap::insert`: replace the value at an existing key, else add. -/
def insertEntry : List (Int × List AbortHandle) → Int → List AbortHandle →
    List (Int × List AbortHandle)
  | [], id, hs => [(id, hs)]
  | (k, v) :: rest, id, hs =>
    if k = id then (id, hs) :: rest else (k, v) :: insertEntry rest id hs

/-- `DashMap::remove`: drop the entry at the key, if any. -/
def removeEntry : List (Int × List AbortHandle) → Int →
    List (Int × List AbortHandle)
  | [], _ => []
  | (k, v) :: rest, id =>
    if k = id then rest else (k, v) :: removeEntry rest id

/-- `DashMap::get`. -/
def lookupEntry : List (Int × List AbortHandle) → Int → Option (List AbortHandle)
  | [], _ => none
  | (k, v) :: rest, id => if k = id then some v else lookupEntry rest id

/-- `ReactiveService::new` (`reactive.rs`, lines 22–24). -/
def ReactiveService.new : ReactiveService := ⟨[]⟩

/-- `ReactiveService::initialize_nodes` (`reactive.rs`, lines 32–37): for each
id, insert a fresh `AbortEntry::new` with an empty handle list.  The
`DashMap::insert` drops any entry already present at the id without invoking
`AbortHandle::abort` on its handles. -/
def ReactiveService.initialize_nodes (s : ReactiveService) (ids : List Int) :
    ReactiveService :=
  ⟨ids.foldl (fun entries id => insertEntry entries id []) s.abort_handles⟩

/-- `ReactiveService::cleanup_nodes` (`reactive.rs`, lines 26–30): remove the
entry of each id. -/
def ReactiveService.cleanup_nodes (s : ReactiveService) (ids : List Int) :
    ReactiveService :=
  ⟨ids.foldl (fun entries id => removeEntry entries id) s.abort_handles⟩

/-- `ReactiveService::register` (`reactive.rs`, lines 39–49): look the entry
up (`AbortEntryNotFound` when absent) and append the handle to its list
(`AbortEntry::push`). -/
def ReactiveService.register (s : ReactiveService) (id : Int) (h : AbortHandle) :
    Except ReactiveServiceError ReactiveService :=
  match lookupEntry s.abort_handles id with
  | none => .error (.AbortEntryNotFound id)
  | some handles => .ok ⟨insertEntry s.abort_handles id (handles ++ [h])⟩

/-- `ReactiveService::abort` (`reactive.rs`, lines 51–60): look the entry up
(`AbortEntryNotFound` when absent) and invoke `handle.abort()` on every handle
in the entry's list, in iteration (registration) order (`AbortEntry::abort`).
The returned list is the sequence of handles this call signalled; the entry's
list itself is left unchanged (aborted handles remain registered). -/
def ReactiveService.abort (s : ReactiveService) (id : Int) :
    Except ReactiveServiceError (List AbortHandle) :=
  match lookupEntry s.abort_handles id with
  | none => .error (.AbortEntryNotFound id)
  | some handles => .ok handles

/-! ## Spec-side walk description (spec §4.E, steps 2–4)

These two relations transcribe the specification's words, for comparison with
the source-derived `handle`: visit a node by appending its selected command,
examine its outgoing edges in declaration order, descend through the first
edge whose `can_pass` holds — the later siblings are unconstrained, hence
unexamined — and terminate the branch when no edge passes. -/

/-- The first passing edge of an edge-address list decides the walk.
`head` constrains nothing about `rest`: once an edge passes, the remaining
siblings play no part. -/
inductive FirstPassingSpec (ev : SelectionTreeEvaluator) (payload : ValuesPayload) :
    List SelectionEdgeAddress → Option SelectionNodeAddress → Prop where
  | nil : FirstPassingSpec ev payload [] none
  | head (address : SelectionEdgeAddress) (rest : List SelectionEdgeAddress)
      (edge : SelectionEdge) :
      ev.get_edge address = .ok edge →
      edge.can_pass payload = .ok true →
      FirstPassingSpec ev payload (address :: rest) (some edge.get_next_selection_node)
  | tail (address : SelectionEdgeAddress) (rest : List SelectionEdgeAddress)
      (edge : SelectionEdge) (result : Option SelectionNodeAddress) :
      ev.get_edge address = .ok edge →
      edge.can_pass payload = .ok false →
      FirstPassingSpec ev payload rest result →
      FirstPassingSpec ev payload (address :: rest) result

/-- The pre-order command sequence along the single chosen path from a node:
the node's own command first, then, if a first passing edge exists, the
sequence of its resolved target; the branch ends where no edge passes. -/
inductive IsChosenPath (ev : SelectionTreeEvaluator) (payload : ValuesPayload) :
    SelectionNode → List ContentCommandAddress → Prop where
  | terminal (node : SelectionNode) (command : ContentCommandAddress) :
      node.select_content_command_id payload = .ok command →
      FirstPassingSpec ev payload node.get_outgoing_edges none →
      IsChosenPath ev payload node [command]
  | descend (node : SelectionNode) (command : ContentCommandAddress)
      (target : SelectionNodeAddress) (next : SelectionNode)
      (rest : List ContentCommandAddress) :
      node.select_content_command_id payload = .ok command →
      FirstPassingSpec ev payload node.get_outgoing_edges (some target) →
      ev.get_node target = .ok next →
      IsChosenPath ev payload next rest →
      IsChosenPath ev payload node (command :: rest)

/-! ## Helper lemmas -/

/-- The edge loop refines the spec-side first-passing-edge relation. -/
theorem firstPassingEdge_sound (ev : SelectionTreeEvaluator) (payload : ValuesPayload) :
    ∀ (edges : List SelectionEdgeAddress) (result : Option SelectionNodeAddress),
    ev.firstPassingEdge payload edges = .ok result →
    FirstPassingSpec ev payload edges result := by
  intro edges
  induction edges with
  | nil =>
    intro result h
    simp only [SelectionTreeEvaluator.firstPassingEdge] at h
    cases h
    exact FirstPassingSpec.nil
  | cons address rest ih =>
    intro result h
    rw [SelectionTreeEvaluator.firstPassingEdge] at h
    cases hedge : ev.get_edge address with
    | error e => rw [hedge] at h; cases h
    | ok edge =>
      rw [hedge] at h
      simp only [] at h
      cases hpass : edge.can_pass payload with
      | error e => rw [hpass] at h; cases h
      | ok b =>
        rw [hpass] at h
        cases b with
        | true => cases h; exact FirstPassingSpec.head address rest edge hedge hpass
        | false => exact FirstPassingSpec.tail address rest edge result hedge hpass (ih result h)

/-- A successful `handle` run extends the incoming buffer with exactly the
spec-side chosen path from the current node. -/
theorem handle_sound (ev : SelectionTreeEvaluator) (payload : ValuesPayload) :
    ∀ (fuel : Nat) (node : SelectionNode) (acc out : List ContentCommandAddress),
    ev.handle payload fuel node acc = some (.ok out) →
    ∃ path, out = acc ++ path ∧ IsChosenPath ev payload node path := by
  intro fuel
  induction fuel with
  | zero => intro node acc out h; cases h
  | succ fuel ih =>
    intro node acc out h
    rw [SelectionTreeEvaluator.handle] at h
    cases hsel : node.select_content_command_id payload with
    | error e => rw [hsel] at h; cases h
    | ok command =>
      rw [hsel] at h
      simp only [] at h
      cases hfp : ev.firstPassingEdge payload node.get_outgoing_edges with
      | error e => rw [hfp] at h; cases h
      | ok opt =>
        rw [hfp] at h
        cases opt with
        | none =>
          cases h
          exact ⟨[command], rfl,
            IsChosenPath.terminal node command hsel
              (firstPassingEdge_sound ev payload _ _ hfp)⟩
        | some target =>
          simp only [] at h
          cases hnode : ev.get_node target with
          | error e => rw [hnode] at h; cases h
          | ok next =>
            rw [hnode] at h
            obtain ⟨path, hout, hpath⟩ := ih next (acc ++ [command]) out h
            refine ⟨command :: path, by simp [hout], ?_⟩
            exact IsChosenPath.descend node command target next path hsel
              (firstPassingEdge_sound ev payload _ _ hfp) hnode hpath

/-- A chosen path starts with the command selected by its first node. -/
theorem chosenPath_head (ev : SelectionTreeEvaluator) (payload : ValuesPayload)
    (node : SelectionNode) (path : List ContentCommandAddress)
    (hpath : IsChosenPath ev payload node path) :
    ∃ command rest, path = command :: rest ∧
      node.select_content_command_id payload = .ok command := by
  cases hpath with
  | terminal node command hsel _ => exact ⟨command, [], rfl, hsel⟩
  | descend node command target next rest hsel _ _ _ => exact ⟨command, rest, rfl, hsel⟩

/-- Looking up the key just inserted yields the inserted value. -/
theorem lookupEntry_insertEntry (l : List (Int × List AbortHandle)) (id : Int)
    (hs : List AbortHandle) : lookupEntry (insertEntry l id hs) id = some hs := by
  induction l with
  | nil => simp [insertEntry, lookupEntry]
  | cons p rest ih =>
    obtain ⟨k, v⟩ := p
    by_cases hk : k = id
    · simp [insertEntry, lookupEntry, hk]
    · simp [insertEntry, lookupEntry, hk, ih]

/-- On the cyclic evaluator, `handle` revisits the loop node once per unit of
fuel, from any buffer, and so never completes. -/
theorem cyclic_handle_none : ∀ (fuel : Nat) (acc : List ContentCommandAddress),
    cyclicEvaluator.handle payloadEmpty fuel cyclicNode acc = none := by
  intro fuel
  induction fuel with
  | zero => intro acc; rfl
  | succ n ih => intro acc; exact ih (acc ++ [⟨0, 0⟩])

/-! ## The claims -/

/-- C1: for every payload and every selection tree, a successful
`select_commands` run returns exactly the pre-order command sequence of the
single path chosen by descending, at each node, through the first outgoing
edge (in declaration order) whose `can_pass` holds — later siblings play no
part — and terminating the branch where no edge passes; each node contributes
its selected command before its edges are examined. -/
theorem select_commands_preorder (ev : SelectionTreeEvaluator)
    (payload : ValuesPayload) (fuel : Nat) (out : List ContentCommandAddress)
    (h : ev.select_commands payload fuel = some (.ok out)) :
    IsChosenPath ev payload ev.start_node out := by
  obtain ⟨path, hout, hpath⟩ := handle_sound ev payload fuel ev.start_node [] out h
  simpa [hout] using hpath

/-- Witness for C1: the fixture run on the default-edge payload returns the
chosen path `[0, 2, 7]`. -/
theorem select_commands_preorder_witness :
    IsChosenPath fixtureEvaluator payloadDefaultEdge fixtureEvaluator.start_node
      [⟨0, 0⟩, ⟨2, 0⟩, ⟨7, 0⟩] :=
  select_commands_preorder fixtureEvaluator payloadDefaultEdge 10
    [⟨0, 0⟩, ⟨2, 0⟩, ⟨7, 0⟩] (by rfl)

/-- C2 counterexample: the claim says the evaluator detects revisits via a
depth bound (default the node count) and returns `CycleDetected`.  On the
one-node cyclic evaluator, with fuel for five visits beyond that bound, the
walk has neither finished nor produced any error — in particular not
`CycleDetected`: there is no depth bound in `handle`. -/
theorem cycle_detection_counterexample :
    cyclicEvaluator.select_commands payloadEmpty (cyclicEvaluator.nodes.length + 5) = none ∧
    cyclicEvaluator.select_commands payloadEmpty (cyclicEvaluator.nodes.length + 5) ≠
      some (.error .CycleDetected) := by
  refine ⟨rfl, ?_⟩
  intro h
  have h2 : (none : Option (Except SelectionTreeError (List ContentCommandAddress))) =
      some (.error .CycleDetected) := h
  exact Option.noConfusion h2

/-- C2 (amended): on a selection tree whose addresses form a cycle,
`select_commands` performs no revisit detection and does not terminate: every
fuel budget is exhausted without a result, so no `CycleDetected` (or any
other) error is ever returned. -/
theorem cyclic_walk_diverges (fuel : Nat) :
    cyclicEvaluator.select_commands payloadEmpty fuel = none :=
  cyclic_handle_none fuel []

/-- C3: on the fixture tree, the payload of `test_only_default_edge_match`
(`firstValueName: Sat`, `secondValueName: 0.3215421213`, `thirdValueName:
11.2`, `fourthValueName: 11`, `fifthValueName: "Borsm"`) selects the command
addresses with ids `[0, 2, 7]`. -/
theorem fixture_default_edge_commands :
    fixtureEvaluator.select_commands payloadDefaultEdge 10 =
      some (.ok [⟨0, 0⟩, ⟨2, 0⟩, ⟨7, 0⟩]) ∧
    commandIds [⟨0, 0⟩, ⟨2, 0⟩, ⟨7, 0⟩] = [0, 2, 7] :=
  ⟨by rfl, by rfl⟩

/-- C4: on the fixture tree, the payload of `test_both_expression_edges_match`
(`thirdValueName` equal to `secondValueName`, `fifthValueName: "Borski"`)
makes both expression edges hold; the first declared edge wins and the
selected command ids are `[0, 1, 4]`. -/
theorem fixture_both_edges_commands :
    fixtureEvaluator.select_commands payloadBothEdges 10 =
      some (.ok [⟨0, 0⟩, ⟨1, 0⟩, ⟨4, 0⟩]) ∧
    commandIds [⟨0, 0⟩, ⟨1, 0⟩, ⟨4, 0⟩] = [0, 1, 4] :=
  ⟨by rfl, by rfl⟩

/-- C5: on the fixture tree, the empty payload fails, and the error is the
edge-evaluation error for the missing left value of the first condition, each
wrapping layer preserved: `SelectionEdgeError` around
`LogicalExpressionSelectionEdgeError` around `ConditionEvaluationError` around
`DidNotFindLeftValue("secondValueName")`. -/
theorem fixture_empty_payload_error :
    fixtureEvaluator.select_commands payloadEmpty 10 =
      some (.error (.SelectionEdgeError (.LogicalExpressionSelectionEdgeError
        (.ConditionEvaluationError (.DidNotFindLeftValue "secondValueName"))))) := by
  rfl

/-- C6: every node or edge lookup of the walk checks the id after indexing —
when the element at the address's index carries a different id, `get_node`
(resp. `get_edge`) fails with `SelectionNodeAddressIdMismatch` (resp.
`SelectionEdgeAddressIdMismatch`) carrying that address, and a successful
lookup never returns an element whose id differs from the address id. -/
theorem address_id_mismatch_checked (ev : SelectionTreeEvaluator)
    (naddr : SelectionNodeAddress) (eaddr : SelectionEdgeAddress)
    (n : SelectionNode) (e : SelectionEdge) :
    (ev.nodes[naddr.index]? = some n → n.id ≠ naddr.id →
      ev.get_node naddr = .error (.SelectionNodeAddressIdMismatch naddr)) ∧
    (ev.edges[eaddr.index]? = some e → e.id ≠ eaddr.id →
      ev.get_edge eaddr = .error (.SelectionEdgeAddressIdMismatch eaddr)) ∧
    (ev.get_node naddr = .ok n → n.id = naddr.id) ∧
    (ev.get_edge eaddr = .ok e → e.id = eaddr.id) := by
  refine ⟨?_, ?_, ?_, ?_⟩
  · intro hget hne
    simp [SelectionTreeEvaluator.get_node, hget, SelectionNode.matches, hne]
  · intro hget hne
    simp [SelectionTreeEvaluator.get_edge, hget, SelectionEdge.matches, hne]
  · intro hok
    rw [SelectionTreeEvaluator.get_node] at hok
    cases hget : ev.nodes.get? naddr.index with
    | none => rw [hget] at hok; cases hok
    | some m =>
      rw [hget] at hok
      simp only [] at hok
      cases hm : m.matches naddr with
      | false => simp [hm] at hok
      | true =>
        simp [hm] at hok
        subst hok
        simpa [SelectionNode.matches] using hm
  · intro hok
    rw [SelectionTreeEvaluator.get_edge] at hok
    cases hget : ev.edges.get? eaddr.index with
    | none => rw [hget] at hok; cases hok
    | some m =>
      rw [hget] at hok
      simp only [] at hok
      cases hm : m.matches eaddr with
      | false => simp [hm] at hok
      | true =>
        simp [hm] at hok
        subst hok
        simpa [SelectionEdge.matches] using hm

/-- Witness for C6: the spec's own scenario — address id 99 at index 0, where
the fixture's `nodes[0]` has id 1 and `edges[0]` has id 0 — fails with the
respective id-mismatch error. -/
theorem address_id_mismatch_witness :
    fixtureEvaluator.get_node ⟨99, 0⟩ =
      .error (.SelectionNodeAddressIdMismatch ⟨99, 0⟩) ∧
    fixtureEvaluator.get_edge ⟨99, 0⟩ =
      .error (.SelectionEdgeAddressIdMismatch ⟨99, 0⟩) :=
  ⟨(address_id_mismatch_checked fixtureEvaluator ⟨99, 0⟩ ⟨99, 0⟩
      fixtureFirstNode fixtureFirstEdge).1 (by rfl) (by decide),
   (address_id_mismatch_checked fixtureEvaluator ⟨99, 0⟩ ⟨99, 0⟩
      fixtureFirstNode fixtureFirstEdge).2.1 (by rfl) (by decide)⟩

/-- C7: an address whose index is out of range of the nodes (resp. edges)
vector resolves to the `MissingNode` (resp. `MissingEdge`) error carrying that
address; the indexing is the checked, `Option`-returning `Vec::get`, so the
error branch — never an out-of-bounds access — is taken. -/
theorem address_out_of_range_missing (ev : SelectionTreeEvaluator)
    (naddr : SelectionNodeAddress) (eaddr : SelectionEdgeAddress) :
    (ev.nodes.length ≤ naddr.index →
      ev.get_node naddr = .error (.MissingNode naddr)) ∧
    (ev.edges.length ≤ eaddr.index →
      ev.get_edge eaddr = .error (.MissingEdge eaddr)) := by
  constructor
  · intro hlen
    have hnone : ev.nodes[naddr.index]? = none := List.getElem?_eq_none hlen
    simp [SelectionTreeEvaluator.get_node, hnone]
  · intro hlen
    have hnone : ev.edges[eaddr.index]? = none := List.getElem?_eq_none hlen
    simp [SelectionTreeEvaluator.get_edge, hnone]

/-- Witness for C7: index 100 is out of range of the fixture's four nodes and
four edges; both lookups return the missing-element errors. -/
theorem address_out_of_range_witness :
    fixtureEvaluator.get_node ⟨0, 100⟩ = .error (.MissingNode ⟨0, 100⟩) ∧
    fixtureEvaluator.get_edge ⟨0, 100⟩ = .error (.MissingEdge ⟨0, 100⟩) :=
  ⟨(address_out_of_range_missing fixtureEvaluator ⟨0, 100⟩ ⟨0, 100⟩).1 (by decide),
   (address_out_of_range_missing fixtureEvaluator ⟨0, 100⟩ ⟨0, 100⟩).2 (by decide)⟩

/-- C8: the reactive-abort scenario — after `initialize_nodes([5])` and
registering handles `1` and `2`, `abort(5)` signals exactly those two handles,
each once, in registration order; after `cleanup_nodes([5])` both `abort(5)`
and every `register(5, _)` return `AbortEntryNotFound(5)`. -/
theorem reactive_abort_scenario :
    (ReactiveService.new.initialize_nodes [5] = (⟨[(5, [])]⟩ : ReactiveService)) ∧
    ((⟨[(5, [])]⟩ : ReactiveService).register 5 1 = .ok ⟨[(5, [1])]⟩) ∧
    ((⟨[(5, [1])]⟩ : ReactiveService).register 5 2 = .ok ⟨[(5, [1, 2])]⟩) ∧
    ((⟨[(5, [1, 2])]⟩ : ReactiveService).abort 5 = .ok [1, 2]) ∧
    ((⟨[(5, [1, 2])]⟩ : ReactiveService).cleanup_nodes [5] = (⟨[]⟩ : ReactiveService)) ∧
    ((⟨[]⟩ : ReactiveService).abort 5 = .error (.AbortEntryNotFound 5)) ∧
    (∀ h : AbortHandle, (⟨[]⟩ : ReactiveService).register 5 h =
      .error (.AbortEntryNotFound 5)) :=
  ⟨by rfl, by rfl, by rfl, by rfl, by rfl, by rfl, fun _ => by rfl⟩

/-- C9: whenever `select_commands` succeeds, the returned list is non-empty
and its first element is the command selected by the start node — the start
node's command is appended before any edge is examined. -/
theorem select_commands_head_is_start_command (ev : SelectionTreeEvaluator)
    (payload : ValuesPayload) (fuel : Nat) (out : List ContentCommandAddress)
    (h : ev.select_commands payload fuel = some (.ok out)) :
    ∃ command rest, out = command :: rest ∧
      ev.start_node.select_content_command_id payload = .ok command := by
  obtain ⟨path, hout, hpath⟩ := handle_sound ev payload fuel ev.start_node [] out h
  obtain ⟨command, rest, hcons, hsel⟩ :=
    chosenPath_head ev payload ev.start_node path hpath
  exact ⟨command, rest, by simp [hout, hcons], hsel⟩

/-- Witness for C9: the fixture run on the both-edges payload returns a list
headed by the start node's command `(0, 0)`. -/
theorem select_commands_head_witness :
    ∃ command rest,
      ([⟨0, 0⟩, ⟨1, 0⟩, ⟨4, 0⟩] : List ContentCommandAddress) = command :: rest ∧
      fixtureEvaluator.start_node.select_content_command_id payloadBothEdges =
        .ok command :=
  select_commands_head_is_start_command fixtureEvaluator payloadBothEdges 10
    [⟨0, 0⟩, ⟨1, 0⟩, ⟨4, 0⟩] (by rfl)

/-- C10: `initialize_nodes` unconditionally inserts a fresh entry with an
empty handle list — on an id that already has registered handles it silently
replaces the entry, so the previously registered handles are discarded and a
subsequent `abort` signals none of them (`initialize_nodes` itself invokes
`abort` on nothing). -/
theorem initialize_nodes_overwrites (s : ReactiveService) (id : Int) :
    lookupEntry (s.initialize_nodes [id]).abort_handles id = some [] ∧
    (s.initialize_nodes [id]).abort id = .ok [] := by
  have hlook : lookupEntry (s.initialize_nodes [id]).abort_handles id = some [] := by
    simp [ReactiveService.initialize_nodes, List.foldl, lookupEntry_insertEntry]
  exact ⟨hlook, by simp [ReactiveService.abort, hlook]⟩

end Buttercup
